import Mathlib

/-
Verification of the enrichmail message-reconstruction pipeline (src/main.rs).

The Rust program walks a parsed e-mail message (mail_parser) and re-emits its
headers, body and attachments onto a mail_builder MessageBuilder, optionally
rendering the text body to HTML and appending a tracking-pixel fragment.

Shallow embedding conventions:
  - Rust panics (unwrap, todo!, panic!-style aborts) are modelled as Option
    results, with none meaning the run aborts with no output.
  - mail_parser / mail_builder values are modelled by plain inductive types
    carrying exactly the data the program reads or writes.
  - Machine integers are Nat (byte values are Nat < 256); timestamps are Int.
  - The external markdown renderer (comrak) and the external serializer are
    parameters, never modelled.
-/

namespace Enrichmail

/-! ## Data model: mail_parser side (external parser output, read-only) -/

/-- RFC header names the program compares against (main.rs lines 263 and 275).
Other RFC names are collapsed into one constructor carrying a tag. -/
inductive RfcHeader where
  | contentType
  | contentDisposition
  | otherRfc (tag : Nat)
deriving DecidableEq, Repr

/-- mail_parser HeaderName: an RFC name or a free-form name. -/
inductive HeaderName where
  | rfc (r : RfcHeader)
  | other (s : String)
deriving DecidableEq, Repr

/-- mail_parser Addr: optional display name, optional address string. -/
structure Addr where
  name : Option String
  address : Option String
deriving DecidableEq, Repr

/-- mail_parser ContentType value: type, optional subtype, named attributes. -/
structure ContentTypeVal where
  ctype : String
  subtype : Option String
  attributes : List (String × String)
deriving DecidableEq, Repr

/-- ContentType::attribute: look up a named attribute (first match). -/
def ContentTypeVal.attribute (ct : ContentTypeVal) (key : String) : Option String :=
  (ct.attributes.find? (fun p => p.1 == key)).map Prod.snd

/-- mail_parser HeaderValue: the tagged header-value variants read by
copy_headers (main.rs lines 136-165). DateTime carries the timestamp the
parser already resolved (DateTime::to_timestamp). -/
inductive HeaderValue where
  | address (a : Addr)
  | addressList (addrs : List Addr)
  | text (t : String)
  | textList (ts : List String)
  | dateTime (timestamp : Int)
  | contentType (ct : ContentTypeVal)
  | group (gname : Option String) (addrs : List Addr)
  | groupList (groups : List (Option String × List Addr))
  | empty
deriving DecidableEq, Repr

/-- A parsed header: name plus typed value. -/
structure Header where
  name : HeaderName
  value : HeaderValue
deriving DecidableEq, Repr

/-- mail_parser PartType: the payload of a message part. copy_attachments
matches Binary and Text and skips every other shape (main.rs lines 293-301). -/
inductive PartType where
  | binary (bytes : List Nat)
  | text (s : String)
  | html (s : String)
  | inlineBinary (bytes : List Nat)
  | message
  | multipart
deriving DecidableEq, Repr

/-- mail_parser MessagePart: its own header set plus a typed payload. -/
structure MessagePart where
  headers : List Header
  body : PartType
deriving DecidableEq, Repr

/-- The parsed Message as the program reads it: ordered top-level headers,
the first text body (body_text(0)), the attachment list (attachments()),
and the optional identifier (message_id()). -/
structure Message where
  headers : List Header
  bodyText : Option String
  attachments : List MessagePart
  messageId : Option String
deriving DecidableEq, Repr

/-! ## Data model: mail_builder side (the write-only message builder) -/

/-- mail_builder Address: a single name+email address or a list of addresses. -/
inductive BAddress where
  | single (name : Option String) (email : String)
  | list (addrs : List BAddress)
deriving Repr

/-- mail_builder HeaderType: the header-assignment variants the program can
emit (plus ContentType, which mail_builder offers but copy_headers never
constructs). -/
inductive BHeaderType where
  | address (a : BAddress)
  | text (t : String)
  | date (timestamp : Int)
  | contentType (ct : String)
deriving Repr

/-- An attachment payload queued on the builder. -/
inductive AttachBody where
  | binary (bytes : List Nat)
  | text (s : String)
deriving DecidableEq, Repr

/-- An attachment assignment on the builder: content-type string, filename
string and the payload. -/
structure Attachment where
  contentType : String
  fileName : String
  body : AttachBody
deriving DecidableEq, Repr

/-- mail_builder MessageBuilder: accumulates a text body, an optional HTML
body, ordered header assignments and ordered attachment assignments. -/
structure MessageBuilder where
  textBody : Option String
  htmlBody : Option String
  headers : List (HeaderName × BHeaderType)
  attachments : List Attachment

/-- MessageBuilder::new(). -/
def MessageBuilder.new : MessageBuilder := ⟨none, none, [], []⟩

instance : Inhabited MessageBuilder := ⟨MessageBuilder.new⟩

/-- MessageBuilder::text_body. -/
def MessageBuilder.text_body (b : MessageBuilder) (t : String) : MessageBuilder :=
  { b with textBody := some t }

/-- MessageBuilder::html_body. -/
def MessageBuilder.html_body (b : MessageBuilder) (t : String) : MessageBuilder :=
  { b with htmlBody := some t }

/-- MessageBuilder::header: push one named header assignment. -/
def MessageBuilder.header (b : MessageBuilder) (n : HeaderName) (v : BHeaderType) :
    MessageBuilder :=
  { b with headers := b.headers ++ [(n, v)] }

/-- MessageBuilder::binary_attachment. -/
def MessageBuilder.binary_attachment (b : MessageBuilder) (ct fn : String)
    (bytes : List Nat) : MessageBuilder :=
  { b with attachments := b.attachments ++ [⟨ct, fn, AttachBody.binary bytes⟩] }

/-- MessageBuilder::text_attachment. -/
def MessageBuilder.text_attachment (b : MessageBuilder) (ct fn : String)
    (s : String) : MessageBuilder :=
  { b with attachments := b.attachments ++ [⟨ct, fn, AttachBody.text s⟩] }

/-! ## Body pre-processing (main.rs lines 89-127) -/

/-- text_body (main.rs line 89): message.body_text(0).unwrap(); none models
the panic when the message has no text body. -/
def text_body (message : Message) : Option String :=
  message.bodyText

/-- Rust str::lines, accumulator form: split at newline characters, stripping
one carriage return before a line feed; a final line without a terminator is
kept as is; no trailing empty line is produced. -/
def rust_lines_aux : List Char → List Char → List (List Char)
  | [], acc => if acc = [] then [] else [acc.reverse]
  | c :: rest, acc =>
    if c = '\n' then
      (match acc with
       | '\r' :: acc2 => acc2.reverse
       | _ => acc.reverse) :: rust_lines_aux rest []
    else
      rust_lines_aux rest (c :: acc)

/-- Rust str::lines on a String. -/
def rust_lines (s : String) : List String :=
  (rust_lines_aux s.data []).map (fun cs => String.mk cs)

/-- pre_markdown (main.rs lines 93-100): for each line of the body push
line ++ two spaces ++ newline onto the result. -/
def pre_markdown (text : String) : String :=
  (rust_lines text).foldl (fun result line => result ++ (line ++ "  \n")) ""

/-- The fixed HTML document template of text_body_as_html (main.rs lines
108-126), with the rendered body and the append fragment spliced in. -/
def html_template (body body_append : String) : String :=
  "\n        <html>\n            <head>\n            <meta http-equiv=\"Content-Type\" content=\"text/html charset=UTF-8\" />\n            <meta name=\"generator\" content=\"mutt-html-markdown/0.1\" />\n            <style>\n                code \x7b margin-left: 20px; background: #ddd; display: inline-block; padding: 10px 16px; font-family: monospace; \x7d\n                blockquote \x7b white-space: normal; border-left: 10px solid #ddd; margin-left: 0; padding-left: 10px \x7d\n            </style>\n            </head>\n            <body>\n                "
    ++ body ++ "\n                " ++ body_append
    ++ "\n            </body>\n        </html>\n        "

/-- text_body_as_html (main.rs lines 102-127). The comrak renderer is the
parameter md (external collaborator); append defaults to the empty string.
none models the panic of text_body when the message has no text body. -/
def text_body_as_html (md : String → String) (message : Message)
    (append : Option String) : Option String :=
  (text_body message).map (fun tb =>
    html_template (md (pre_markdown tb)) (append.getD ""))

/-! ## Header transformation (main.rs lines 129-171) -/

/-- transform_address (main.rs lines 129-132): passes the display name
through and unwraps the address string; none models the unwrap panic when
the address string is absent. -/
def transform_address (address : Addr) : Option BAddress :=
  address.address.map (fun addr => BAddress.single address.name addr)

/-- The address-list loop of copy_headers (main.rs lines 146-155): transform
each element in order, panicking (none) on the first address without an
address string. -/
def transform_address_list : List Addr → Option (List BAddress)
  | [] => some []
  | a :: rest =>
    match transform_address a with
    | none => none
    | some d => (transform_address_list rest).map (fun ds => d :: ds)

/-- Rust slice join (used at main.rs line 161 as text_list.join): elements
interleaved with the separator. -/
def rust_join (sep : String) : List String → String
  | [] => ""
  | [s] => s
  | s :: rest => s ++ sep ++ rust_join sep rest

/-- The per-header match of copy_headers (main.rs lines 136-165), the Header
Transformer: outer none models the todo! panic on Group, GroupList and Empty
and the unwrap panic on an absent address string; some none is the silent
drop of a ContentType header; some (some h) is an emitted assignment. -/
def transform_header_value : HeaderValue → Option (Option BHeaderType)
  | HeaderValue.address a =>
    (transform_address a).map (fun d => some (BHeaderType.address d))
  | HeaderValue.text t => some (some (BHeaderType.text t))
  | HeaderValue.dateTime ts => some (some (BHeaderType.date ts))
  | HeaderValue.contentType _ => some none
  | HeaderValue.addressList addrs =>
    (transform_address_list addrs).map
      (fun ds => some (BHeaderType.address (BAddress.list ds)))
  | HeaderValue.group _ _ => none
  | HeaderValue.groupList _ => none
  | HeaderValue.textList ts =>
    some (some (BHeaderType.text (rust_join "\t\n" ts)))
  | HeaderValue.empty => none

/-- copy_headers (main.rs lines 134-171): fold the Header Transformer over
the source headers in order, pushing each emitted assignment; none models
the abort of the whole copy on the first panicking header. -/
def copy_headers (dest : MessageBuilder) : List Header → Option MessageBuilder
  | [] => some dest
  | h :: rest =>
    match transform_header_value h.value with
    | none => none
    | some none => copy_headers dest rest
    | some (some nh) => copy_headers (dest.header h.name nh) rest

/-! ## Tracking pixel (main.rs lines 193-202) -/

/-- The base64 alphabet of the STANDARD engines (RFC 4648 standard). -/
def b64_std_alphabet : List Char :=
  "ABCDEFGHIJKLMNOPQRSTUVWXYZabcdefghijklmnopqrstuvwxyz0123456789+/".data

/-- Modelled from the spec: the URL-safe base64 alphabet (RFC 4648 URL-safe);
the source only ever uses the standard alphabet, the spec claims URL-safe. -/
def b64_url_alphabet : List Char :=
  "ABCDEFGHIJKLMNOPQRSTUVWXYZabcdefghijklmnopqrstuvwxyz0123456789-_".data

/-- One output character of a base64 encoder over the given alphabet. -/
def b64_char (alphabet : List Char) (n : Nat) : Char :=
  alphabet.getD n 'A'

/-- Unpadded base64 over a 64-character alphabet: three input bytes become
four characters; a final group of one or two bytes becomes two or three
characters and no padding character is emitted. -/
def base64_no_pad (alphabet : List Char) : List Nat → List Char
  | [] => []
  | [b1] =>
    [b64_char alphabet (b1 / 4), b64_char alphabet (b1 % 4 * 16)]
  | [b1, b2] =>
    [b64_char alphabet (b1 / 4), b64_char alphabet (b1 % 4 * 16 + b2 / 16),
     b64_char alphabet (b2 % 16 * 4)]
  | b1 :: b2 :: b3 :: rest =>
    b64_char alphabet (b1 / 4) :: b64_char alphabet (b1 % 4 * 16 + b2 / 16) ::
    b64_char alphabet (b2 % 16 * 4 + b3 / 64) :: b64_char alphabet (b3 % 64) ::
    base64_no_pad alphabet rest

/-- UTF-8 encoding of one character, as byte values. -/
def utf8_bytes_of_char (c : Char) : List Nat :=
  let n := c.toNat
  if n < 128 then [n]
  else if n < 2048 then [192 + n / 64, 128 + n % 64]
  else if n < 65536 then [224 + n / 4096, 128 + n / 64 % 64, 128 + n % 64]
  else [240 + n / 262144, 128 + n / 4096 % 64, 128 + n / 64 % 64, 128 + n % 64]

/-- UTF-8 bytes of a string (the &str bytes the base64 engine consumes). -/
def utf8_bytes (s : String) : List Nat :=
  (s.data.map utf8_bytes_of_char).flatten

/-- general_purpose::STANDARD_NO_PAD.encode (main.rs line 194): standard
alphabet, no padding. -/
def b64_encode_std_no_pad (bytes : List Nat) : String :=
  String.mk (base64_no_pad b64_std_alphabet bytes)

/-- Modelled from the spec: URL-safe base64 without padding, the encoding
the spec says the Tracking Pixel Deriver uses. -/
def b64_encode_url_no_pad (bytes : List Nat) : String :=
  String.mk (base64_no_pad b64_url_alphabet bytes)

/-- The img-tag wrapper of get_pixel_element (main.rs lines 196-201). -/
def pixel_img_element (pixel_url : String) : String :=
  "\n        <img src=\"" ++ pixel_url
    ++ "\" alt=\"Open pixel\" style=\"border: 0px; width: 0px; max-width: 1px;\" />\n        "

/-- get_pixel_element (main.rs lines 193-202): unwrap the message identifier
(none models the panic when it is absent), encode its bytes with
STANDARD_NO_PAD, build the /image/...gif URL and wrap it in the img tag. -/
def get_pixel_element (tracking_url : String) (message : Message) : Option String :=
  message.messageId.map (fun id =>
    pixel_img_element
      (tracking_url ++ "/image/" ++ b64_encode_std_no_pad (utf8_bytes id) ++ ".gif"))

/-! ## Attachment copying (main.rs lines 260-304) -/

/-- get_file_name (main.rs lines 260-270): scan the part's headers; for each
Content-Disposition header whose value is of content-type shape, overwrite
the result with its filename attribute, unwrapping it; none models the
unwrap panic when that attribute is absent. -/
def get_file_name (attachment : MessagePart) : Option String :=
  attachment.headers.foldlM
    (fun result header =>
      if header.name = HeaderName.rfc RfcHeader.contentDisposition then
        match header.value with
        | HeaderValue.contentType ct => ct.attribute "filename"
        | _ => some result
      else some result)
    ""

/-- get_content_type (main.rs lines 272-286): scan the part's headers; for
each Content-Type header whose value is of content-type shape, push the type
and, when present, a slash and the subtype onto the result. -/
def get_content_type (attachment : MessagePart) : String :=
  attachment.headers.foldl
    (fun result header =>
      if header.name = HeaderName.rfc RfcHeader.contentType then
        match header.value with
        | HeaderValue.contentType ct =>
          result ++ ct.ctype
            ++ (match ct.subtype with
                | some sub => "/" ++ sub
                | none => "")
        | _ => result
      else result)
    ""

/-- copy_attachments (main.rs lines 288-304): for each attachment in order
derive its content type and filename (filename derivation can panic, none),
then push a binary or text attachment and silently skip other payloads. -/
def copy_attachments (dest : MessageBuilder) : List MessagePart → Option MessageBuilder
  | [] => some dest
  | a :: rest =>
    match get_file_name a with
    | none => none
    | some file_name =>
      let content_type := get_content_type a
      match a.body with
      | PartType.binary bytes =>
        copy_attachments (dest.binary_attachment content_type file_name bytes) rest
      | PartType.text s =>
        copy_attachments (dest.text_attachment content_type file_name s) rest
      | _ => copy_attachments dest rest

/-! ## Orchestration (main.rs lines 36-87, 204-258) -/

/-- get_builder_from_parser (main.rs lines 225-230; renamed here): start a
builder with the text body, copy the headers, copy the attachments; none
models any panic along the way. -/
def get_builder_from_parsed (message : Message) : Option MessageBuilder :=
  match text_body message with
  | none => none
  | some tb =>
    match copy_headers (MessageBuilder.new.text_body tb) message.headers with
    | none => none
    | some eml => copy_attachments eml message.attachments

/-- Rust u16::from_str as used for the port argument: optional leading plus
sign, at least one character, decimal digits only, value below 65536. -/
def parse_u16 (s : String) : Option Nat :=
  let cs := match s.data with
            | '+' :: rest => rest
            | cs => cs
  if cs = [] then none
  else if cs.all (fun c => c.isDigit) then
    let n := cs.foldl (fun acc c => acc * 10 + (c.toNat - 48)) 0
    if n < 65536 then some n else none
  else none

/-- The command-line switches consumed by the default reconstruction mode. -/
structure Config where
  put_on_imap : Option String
  server : Option String
  port : Option String
  user : Option String
  password : Option String
  generate_html : Bool
  add_pixel : Option String

/-- handle_put_email_on_imap_server (main.rs lines 232-258): when all
delivery arguments are present and the port parses, deliver the builder,
first giving it an HTML body rendered with no append fragment when
generate-html is set; when put-on-imap is absent do nothing; otherwise
panic (outer none). The inner option is the builder handed to the IMAP
collaborator, if any. -/
def handle_put_email_on_imap_server (md : String → String) (eml : MessageBuilder)
    (message : Message) (cfg : Config) : Option (Option MessageBuilder) :=
  match cfg.put_on_imap, cfg.server, parse_u16 (cfg.port.getD "933"),
        cfg.user, cfg.password, cfg.generate_html with
  | some _, some _, some _, some _, some _, generate_html =>
    if generate_html then
      match text_body_as_html md message none with
      | none => none
      | some h => some (some (eml.html_body h))
    else some (some eml)
  | none, _, _, _, _, _ => some none
  | _, _, _, _, _, _ => none

/-- The outcome of one default-mode run: the builder handed to the delivery
collaborator, if any, and the builder serialized to standard output. -/
structure MainOutcome where
  delivered : Option MessageBuilder
  output : MessageBuilder

/-- The default reconstruction path of main (main.rs lines 74-87): build the
message, run the delivery step, derive the optional pixel fragment, then
optionally attach the HTML body (with the pixel appended) before printing;
none models any panic along the way. -/
def main_reconstruct (md : String → String) (message : Message) (cfg : Config) :
    Option MainOutcome :=
  match get_builder_from_parsed message with
  | none => none
  | some eml =>
    match handle_put_email_on_imap_server md eml message cfg with
    | none => none
    | some delivered =>
      match (match cfg.add_pixel with
             | some tracking_url => (get_pixel_element tracking_url message).map some
             | none => some none) with
      | none => none
      | some append =>
        if cfg.generate_html then
          match text_body_as_html md message append with
          | none => none
          | some h => some ⟨delivered, eml.html_body h⟩
        else some ⟨delivered, eml⟩

/-! ## Helper lemmas on string folds and joins -/

theorem string_foldl_append :
    ∀ (xs : List String) (init : String),
      xs.foldl (fun r s => r ++ s) init = init ++ xs.foldl (fun r s => r ++ s) ""
  | [], _ => by simp
  | x :: xs, init => by
    simp only [List.foldl_cons]
    rw [string_foldl_append xs (init ++ x), string_foldl_append xs ("" ++ x)]
    simp [String.append_assoc]

theorem string_join_cons (a : String) (l : List String) :
    String.join (a :: l) = a ++ String.join l := by
  simp only [String.join, List.foldl_cons]
  rw [string_foldl_append l ("" ++ a)]
  simp

/-! ## C6: pre_markdown appends two spaces and a newline to every line -/

/-- C6: for every body text, pre-processing rewrites each line to the line
followed by exactly two space characters and a newline, and the body
"line one\nline two" pre-processes to "line one  \nline two  \n". -/
theorem C6_pre_markdown_hard_breaks :
    (∀ t : String,
      pre_markdown t = String.join ((rust_lines t).map (fun line => line ++ "  \n")))
    ∧ pre_markdown "line one\nline two" = "line one  \nline two  \n" := by
  constructor
  · intro t
    simp [pre_markdown, String.join, List.foldl_map]
  · rfl

/-! ## C7: TextList headers flatten to one tab-newline joined assignment -/

theorem rust_join_cons_append (sep x y : String) (as : List String) :
    rust_join sep ((x ++ y) :: as) = x ++ rust_join sep (y :: as) := by
  cases as <;> simp [rust_join, String.append_assoc]

theorem intercalate_go_eq (sep : String) :
    ∀ (as : List String) (acc : String),
      String.intercalate.go acc sep as = rust_join sep (acc :: as)
  | [], _ => rfl
  | a :: as, acc => by
    show String.intercalate.go (acc ++ sep ++ a) sep as = rust_join sep (acc :: a :: as)
    rw [intercalate_go_eq sep as (acc ++ sep ++ a)]
    rw [show acc ++ sep ++ a = (acc ++ sep) ++ a from rfl]
    rw [rust_join_cons_append sep (acc ++ sep) a as]
    simp [rust_join]

theorem rust_join_eq_intercalate (sep : String) :
    ∀ ts : List String, rust_join sep ts = String.intercalate sep ts
  | [] => rfl
  | a :: as => by
    show rust_join sep (a :: as) = String.intercalate.go a sep as
    rw [intercalate_go_eq sep as a]

/-- C7: a TextList header is emitted as exactly one free-text assignment
whose string is the list's elements joined with a tab followed by a
newline. -/
theorem C7_textlist_flattening :
    ∀ (dest : MessageBuilder) (n : HeaderName) (ts : List String),
      copy_headers dest [⟨n, HeaderValue.textList ts⟩] =
        some (dest.header n (BHeaderType.text (String.intercalate "\t\n" ts))) := by
  intro dest n ts
  simp [copy_headers, transform_header_value, rust_join_eq_intercalate]

/-! ## C10: attachment content type concatenates all Content-Type headers -/

/-- The type-or-type-slash-subtype string one header contributes to the
derived content type: empty unless the header is a Content-Type header of
content-type shape. -/
def ct_header_string (h : Header) : String :=
  if h.name = HeaderName.rfc RfcHeader.contentType then
    match h.value with
    | HeaderValue.contentType ct =>
      ct.ctype
        ++ (match ct.subtype with
            | some sub => "/" ++ sub
            | none => "")
    | _ => ""
  else ""

theorem get_content_type_aux :
    ∀ (hs : List Header) (init : String),
      List.foldl
        (fun result header =>
          if header.name = HeaderName.rfc RfcHeader.contentType then
            match header.value with
            | HeaderValue.contentType ct =>
              result ++ ct.ctype
                ++ (match ct.subtype with
                    | some sub => "/" ++ sub
                    | none => "")
            | _ => result
          else result)
        init hs
      = init ++ String.join (hs.map ct_header_string)
  | [], init => by simp [String.join]
  | h :: hs, init => by
    simp only [List.foldl_cons, List.map_cons]
    rw [get_content_type_aux hs, string_join_cons]
    rcases h with ⟨hn, hv⟩
    by_cases hne : hn = HeaderName.rfc RfcHeader.contentType
    · cases hv <;> simp [ct_header_string, hne, String.append_assoc]
    · simp [ct_header_string, hne]

/-- A two-header example part used to exhibit the concatenation. -/
def partC10 : MessagePart :=
  ⟨[⟨HeaderName.rfc RfcHeader.contentType, HeaderValue.contentType ⟨"text", some "plain", []⟩⟩,
    ⟨HeaderName.rfc RfcHeader.contentType, HeaderValue.contentType ⟨"image", some "png", []⟩⟩],
   PartType.text "hi"⟩

/-- C10: the derived content-type string of an attachment part is the
concatenation, in header order and with no separator, of the
type-or-type/subtype string of every Content-Type header; with two such
headers the result is both strings glued together, not the value of a
single header. -/
theorem C10_content_type_concatenation :
    (∀ p : MessagePart,
      get_content_type p = String.join (p.headers.map ct_header_string))
    ∧ get_content_type partC10 = "text/plain" ++ "image/png" := by
  constructor
  · intro p
    exact get_content_type_aux p.headers ""
  · rfl

/-! ## C1: the tracking pixel uses standard (not URL-safe) base64 -/

theorem b64_char_mem :
    ∀ (al : List Char) (n : Nat), b64_char al n ∈ al ∨ b64_char al n = 'A'
  | [], _ => Or.inr rfl
  | c :: _, 0 => Or.inl (by simp [b64_char, List.getD])
  | _ :: al, n + 1 => by
    rcases b64_char_mem al n with h | h
    · exact Or.inl (by simp only [b64_char, List.getD_cons_succ] at *; exact List.mem_cons_of_mem _ h)
    · exact Or.inr (by simp only [b64_char, List.getD_cons_succ] at *; exact h)

theorem base64_no_pad_chars (al : List Char) :
    ∀ (bs : List Nat), ∀ c ∈ base64_no_pad al bs, c ∈ al ∨ c = 'A'
  | [] => by simp [base64_no_pad]
  | [b1] => by
    intro c hc
    simp only [base64_no_pad, List.mem_cons, List.not_mem_nil, or_false] at hc
    rcases hc with rfl | rfl <;> exact b64_char_mem al _
  | [b1, b2] => by
    intro c hc
    simp only [base64_no_pad, List.mem_cons, List.not_mem_nil, or_false] at hc
    rcases hc with rfl | rfl | rfl <;> exact b64_char_mem al _
  | b1 :: b2 :: b3 :: rest => by
    intro c hc
    simp only [base64_no_pad, List.mem_cons] at hc
    rcases hc with rfl | rfl | rfl | rfl | h
    · exact b64_char_mem al _
    · exact b64_char_mem al _
    · exact b64_char_mem al _
    · exact b64_char_mem al _
    · exact base64_no_pad_chars al rest c h

/-- C1 amended: the encoded identifier segment is standard base64 (not
URL-safe) of the identifier's bytes, without padding characters, and the
derived img tag's source URL is base_url ++ "/image/" ++ encoded ++ ".gif". -/
theorem C1_pixel_standard_b64_no_pad :
    ∀ (tracking_url : String) (m : Message) (id : String),
      m.messageId = some id →
      get_pixel_element tracking_url m =
          some (pixel_img_element
            (tracking_url ++ "/image/" ++ b64_encode_std_no_pad (utf8_bytes id) ++ ".gif"))
        ∧ ∀ c ∈ (b64_encode_std_no_pad (utf8_bytes id)).data, c ≠ '=' := by
  intro tracking_url m id hid
  constructor
  · simp [get_pixel_element, hid]
  · intro c hc heq
    have hmem : c ∈ b64_std_alphabet ∨ c = 'A' :=
      base64_no_pad_chars b64_std_alphabet (utf8_bytes id) c hc
    subst heq
    rcases hmem with h | h
    · exact absurd h (by decide)
    · exact absurd h (by decide)

/-- The example-scenario message whose identifier the spec encodes. -/
def mC1w : Message := ⟨[], none, [], some "<abc123@example.com>"⟩

/-- C1 amended, witness: the pixel element derived for the identifier
"<abc123@example.com>" and base URL "https://t.example". -/
theorem C1_pixel_standard_b64_no_pad_witness :
    get_pixel_element "https://t.example" mC1w =
        some (pixel_img_element
          ("https://t.example" ++ "/image/"
            ++ b64_encode_std_no_pad (utf8_bytes "<abc123@example.com>") ++ ".gif"))
      ∧ ∀ c ∈ (b64_encode_std_no_pad (utf8_bytes "<abc123@example.com>")).data, c ≠ '=' :=
  C1_pixel_standard_b64_no_pad "https://t.example" mC1w "<abc123@example.com>" rfl

/-- A message whose identifier encodes differently under the standard and
URL-safe alphabets. -/
def mC1 : Message := ⟨[], none, [], some "???"⟩

/-- C1 counterexample: for the identifier "???" the program encodes the
segment as "Pz8/" (standard alphabet, containing a slash), while URL-safe
base64 without padding yields "Pz8_", so the derived source URL is not the
one the claim specifies. -/
theorem C1_counterexample :
    mC1.messageId = some "???"
    ∧ b64_encode_std_no_pad (utf8_bytes "???") = "Pz8/"
    ∧ b64_encode_url_no_pad (utf8_bytes "???") = "Pz8_"
    ∧ get_pixel_element "https://t.example" mC1 ≠
        some (pixel_img_element
          ("https://t.example" ++ "/image/"
            ++ b64_encode_url_no_pad (utf8_bytes "???") ++ ".gif")) := by
  refine ⟨rfl, rfl, rfl, ?_⟩
  decide

/-! ## C3: filename extraction and absent metadata -/

/-- Whether a header is a Content-Disposition header of content-type shape,
the only kind the filename scan reads. -/
def is_cd_ct (h : Header) : Bool :=
  if h.name = HeaderName.rfc RfcHeader.contentDisposition then
    match h.value with
    | HeaderValue.contentType _ => true
    | _ => false
  else false

theorem get_file_name_aux :
    ∀ (hs : List Header) (init : String), (∀ h ∈ hs, is_cd_ct h = false) →
      List.foldlM (m := Option)
        (fun result header =>
          if header.name = HeaderName.rfc RfcHeader.contentDisposition then
            match header.value with
            | HeaderValue.contentType ct => ct.attribute "filename"
            | _ => some result
          else some result)
        init hs = some init
  | [], _, _ => rfl
  | h :: hs, init, hall => by
    have hh : is_cd_ct h = false := hall h (List.mem_cons_self h hs)
    have htail : ∀ h2 ∈ hs, is_cd_ct h2 = false :=
      fun h2 hm => hall h2 (List.mem_cons_of_mem h hm)
    rcases h with ⟨hn, hv⟩
    simp only [List.foldlM_cons]
    by_cases hne : hn = HeaderName.rfc RfcHeader.contentDisposition
    · cases hv <;> simp_all [is_cd_ct, get_file_name_aux hs init htail]
    · simp [hne, get_file_name_aux hs init htail]

/-- C3 amended: when an attachment part carries no Content-Disposition
header of content-type shape, filename extraction succeeds and yields the
empty string; but when such a header is present without a filename
attribute, the extraction aborts (the error branch is reachable). -/
theorem C3_absent_disposition_gives_empty :
    ∀ p : MessagePart, (∀ h ∈ p.headers, is_cd_ct h = false) →
      get_file_name p = some "" := by
  intro p h
  exact get_file_name_aux p.headers "" h

/-- An attachment part with no content-disposition header at all. -/
def partC3w : MessagePart :=
  ⟨[⟨HeaderName.rfc RfcHeader.contentType, HeaderValue.contentType ⟨"text", some "plain", []⟩⟩],
   PartType.text "hi"⟩

/-- C3 amended, witness: a part without disposition metadata yields the
empty filename. -/
theorem C3_absent_disposition_gives_empty_witness :
    get_file_name partC3w = some "" :=
  C3_absent_disposition_gives_empty partC3w (by decide)

/-- An attachment part whose Content-Disposition header carries no filename
attribute (for example a bare "inline" or "attachment" disposition). -/
def partC3 : MessagePart :=
  ⟨[⟨HeaderName.rfc RfcHeader.contentDisposition, HeaderValue.contentType ⟨"attachment", none, []⟩⟩],
   PartType.text "hi"⟩

/-- C3 counterexample: on a part whose Content-Disposition header has no
filename attribute, filename extraction aborts (none, the unwrap panic)
instead of yielding the empty string, so the error branch is reachable. -/
theorem C3_counterexample :
    partC3.headers.map Header.name = [HeaderName.rfc RfcHeader.contentDisposition]
    ∧ get_file_name partC3 = none := ⟨rfl, rfl⟩

/-! ## C2: unsupported header variants abort reconstruction entirely -/

/-- The header-value variants copy_headers cannot represent: Group,
GroupList and Empty all hit a todo! panic (main.rs lines 156-164). -/
def unsupported_value : HeaderValue → Bool
  | HeaderValue.group _ _ => true
  | HeaderValue.groupList _ => true
  | HeaderValue.empty => true
  | _ => false

theorem copy_headers_unsupported_none :
    ∀ (dest : MessageBuilder) (hs : List Header),
      (∃ h ∈ hs, unsupported_value h.value = true) →
      copy_headers dest hs = none
  | _, [], hex => by simp at hex
  | dest, h :: t, hex => by
    rcases hex with ⟨h2, hmem, huns⟩
    rcases List.mem_cons.mp hmem with rfl | hmem2
    · rcases h2 with ⟨hn, hv⟩
      cases hv <;> simp_all [unsupported_value, copy_headers, transform_header_value]
    · cases htr : transform_header_value h.value with
      | none => simp [copy_headers, htr]
      | some o =>
        cases o <;>
          simp [copy_headers, htr,
            copy_headers_unsupported_none _ t ⟨h2, hmem2, huns⟩]

/-- C2: a message containing a Group, GroupList or Empty header makes the
header copy abort with no output, and the whole reconstruction produces no
builder at all -- no header or attachment copying survives it. -/
theorem C2_failfast_unsupported_variant :
    ∀ (dest : MessageBuilder) (m : Message),
      (∃ h ∈ m.headers, unsupported_value h.value = true) →
      copy_headers dest m.headers = none ∧ get_builder_from_parsed m = none := by
  intro dest m hex
  refine ⟨copy_headers_unsupported_none dest m.headers hex, ?_⟩
  unfold get_builder_from_parsed
  cases htb : text_body m with
  | none => rfl
  | some tb =>
    show (match copy_headers (MessageBuilder.new.text_body tb) m.headers with
          | none => none
          | some eml => copy_attachments eml m.attachments) = none
    rw [copy_headers_unsupported_none _ m.headers hex]

/-- A message with one Group header and nine otherwise-valid headers. -/
def mC2 : Message :=
  ⟨[⟨HeaderName.other "From", HeaderValue.address ⟨some "Alice", some "alice@example.com"⟩⟩,
    ⟨HeaderName.other "To", HeaderValue.addressList [⟨none, some "bob@example.com"⟩]⟩,
    ⟨HeaderName.other "Subject", HeaderValue.text "Hello"⟩,
    ⟨HeaderName.other "Keywords", HeaderValue.textList ["a", "b"]⟩,
    ⟨HeaderName.other "Date", HeaderValue.dateTime 1700000000⟩,
    ⟨HeaderName.rfc RfcHeader.contentType, HeaderValue.contentType ⟨"text", some "plain", []⟩⟩,
    ⟨HeaderName.other "Cc", HeaderValue.address ⟨none, some "carol@example.com"⟩⟩,
    ⟨HeaderName.other "Reply-To", HeaderValue.address ⟨none, some "alice@example.com"⟩⟩,
    ⟨HeaderName.other "Group-Hdr", HeaderValue.group (some "team") []⟩,
    ⟨HeaderName.other "Comments", HeaderValue.text "ok"⟩],
   some "line one\nline two", [], some "<abc123@example.com>"⟩

/-- C2 witness: one Group header among nine valid headers produces no
output at all. -/
theorem C2_failfast_unsupported_variant_witness :
    copy_headers MessageBuilder.new mC2.headers = none
    ∧ get_builder_from_parsed mC2 = none :=
  C2_failfast_unsupported_variant MessageBuilder.new mC2 (by decide)

/-! ## C5: ContentType headers are silently dropped -/

/-- Whether a parsed header value is of the ContentType variant. -/
def is_content_type_value : HeaderValue → Bool
  | HeaderValue.contentType _ => true
  | _ => false

/-- Whether a builder header assignment is a content-type assignment. -/
def is_ct_assignment : BHeaderType → Bool
  | BHeaderType.contentType _ => true
  | _ => false

theorem transform_some_none_ct {v : HeaderValue}
    (h : transform_header_value v = some none) : is_content_type_value v = true := by
  cases v with
  | address a =>
    cases ha : a.address <;>
      simp [transform_header_value, transform_address, ha] at h
  | addressList addrs =>
    cases hl : transform_address_list addrs <;>
      simp [transform_header_value, hl] at h
  | text t => simp [transform_header_value] at h
  | textList ts => simp [transform_header_value] at h
  | dateTime ts => simp [transform_header_value] at h
  | contentType ct => rfl
  | group gname addrs => simp [transform_header_value] at h
  | groupList gs => simp [transform_header_value] at h
  | empty => simp [transform_header_value] at h

theorem transform_some_some_not_ct {v : HeaderValue} {nh : BHeaderType}
    (h : transform_header_value v = some (some nh)) :
    is_content_type_value v = false ∧ is_ct_assignment nh = false := by
  cases v with
  | address a =>
    cases ha : a.address <;>
      simp_all [transform_header_value, transform_address, ha, is_content_type_value]
    subst h; rfl
  | addressList addrs =>
    cases hl : transform_address_list addrs <;>
      simp_all [transform_header_value, hl, is_content_type_value]
    subst h; rfl
  | text t => simp_all [transform_header_value, is_content_type_value]; subst h; rfl
  | textList ts => simp_all [transform_header_value, is_content_type_value]; subst h; rfl
  | dateTime ts => simp_all [transform_header_value, is_content_type_value]; subst h; rfl
  | contentType ct => simp [transform_header_value] at h
  | group g addrs => simp [transform_header_value] at h
  | groupList gs => simp [transform_header_value] at h
  | empty => simp [transform_header_value] at h

/-- C5: a successful header copy emits the same output with every
ContentType header removed from the source, and no emitted assignment is a
content-type assignment: the source's ContentType header never reaches the
output header set. -/
theorem C5_content_type_drop :
    ∀ (dest : MessageBuilder) (hs : List Header) (out : MessageBuilder),
      copy_headers dest hs = some out →
      copy_headers dest (hs.filter (fun h => !is_content_type_value h.value)) = some out
      ∧ ∃ emitted, out.headers = dest.headers ++ emitted
          ∧ ∀ a ∈ emitted, is_ct_assignment a.2 = false
  | dest, [], out, hcp => by
    obtain rfl := Option.some.inj hcp
    exact ⟨rfl, [], by simp, by simp⟩
  | dest, h :: t, out, hcp => by
    simp only [copy_headers] at hcp
    cases htr : transform_header_value h.value with
    | none => rw [htr] at hcp; exact absurd hcp (by simp)
    | some o =>
      rw [htr] at hcp
      cases o with
      | none =>
        have hct := transform_some_none_ct htr
        have IH := C5_content_type_drop dest t out hcp
        refine ⟨?_, IH.2⟩
        simpa [List.filter_cons, hct] using IH.1
      | some nh =>
        obtain ⟨hctf, hnct⟩ := transform_some_some_not_ct htr
        have IH := C5_content_type_drop (dest.header h.name nh) t out hcp
        constructor
        · simp only [List.filter_cons, hctf, Bool.not_false, if_true]
          simp only [copy_headers, htr]
          exact IH.1
        · obtain ⟨em, hem, hall⟩ := IH.2
          refine ⟨(h.name, nh) :: em, ?_, ?_⟩
          · rw [hem]; simp [MessageBuilder.header]
          · intro a ha
            rcases List.mem_cons.mp ha with rfl | ha2
            · exact hnct
            · exact hall a ha2

/-- A header list with a top-level ContentType header and a text header. -/
def hsC5 : List Header :=
  [⟨HeaderName.rfc RfcHeader.contentType, HeaderValue.contentType ⟨"text", some "plain", []⟩⟩,
   ⟨HeaderName.other "Subject", HeaderValue.text "Hello"⟩]

/-- The builder the copy produces on hsC5. -/
def outC5 : MessageBuilder := (copy_headers MessageBuilder.new hsC5).getD MessageBuilder.new

/-- C5 witness: copying a list with a ContentType header emits the same
output as the list without it, and nothing emitted is a content-type
assignment. -/
theorem C5_content_type_drop_witness :
    copy_headers MessageBuilder.new (hsC5.filter (fun h => !is_content_type_value h.value)) = some outC5
    ∧ ∃ emitted, outC5.headers = MessageBuilder.new.headers ++ emitted
        ∧ ∀ a ∈ emitted, is_ct_assignment a.2 = false :=
  C5_content_type_drop MessageBuilder.new hsC5 outC5 rfl

/-! ## C4: round-trip header fidelity for supported variants -/

/-- The header-value variants the copier supports (everything except
Group, GroupList and Empty). -/
def supported_value : HeaderValue → Bool
  | HeaderValue.address _ => true
  | HeaderValue.addressList _ => true
  | HeaderValue.text _ => true
  | HeaderValue.textList _ => true
  | HeaderValue.dateTime _ => true
  | HeaderValue.contentType _ => true
  | _ => false

/-- Whether every address record inside the value carries an address
string (the upstream parser contract the copier unwraps). -/
def addrs_ok : HeaderValue → Bool
  | HeaderValue.address a => a.address.isSome
  | HeaderValue.addressList addrs => addrs.all (fun a => a.address.isSome)
  | _ => true

/-- Semantic address equality of the spec: same display name, same address
string. -/
def addr_matches (src : Addr) : BAddress → Prop
  | BAddress.single n e => n = src.name ∧ src.address = some e
  | BAddress.list _ => False

/-- Semantic equality between a source header value and an emitted
assignment: address equality by display-name plus address-string, list
equality pointwise in order, text equality by exact string, text-list
equality by the tab-newline flattening, date equality by timestamp. -/
def value_matches : HeaderValue → BHeaderType → Prop
  | HeaderValue.address a, BHeaderType.address d => addr_matches a d
  | HeaderValue.addressList addrs, BHeaderType.address (BAddress.list ds) =>
    List.Forall₂ addr_matches addrs ds
  | HeaderValue.text t, BHeaderType.text t2 => t2 = t
  | HeaderValue.textList ts, BHeaderType.text t2 => t2 = String.intercalate "\t\n" ts
  | HeaderValue.dateTime ts, BHeaderType.date ts2 => ts2 = ts
  | _, _ => False

theorem transform_address_list_ok :
    ∀ (addrs : List Addr), (∀ a ∈ addrs, a.address.isSome = true) →
      ∃ ds, transform_address_list addrs = some ds ∧ List.Forall₂ addr_matches addrs ds
  | [], _ => ⟨[], rfl, List.Forall₂.nil⟩
  | a :: rest, hall => by
    obtain ⟨e, he⟩ := Option.isSome_iff_exists.mp (hall a (List.mem_cons_self a rest))
    obtain ⟨ds, hds, hf⟩ :=
      transform_address_list_ok rest (fun x hx => hall x (List.mem_cons_of_mem a hx))
    refine ⟨BAddress.single a.name e :: ds, ?_, List.Forall₂.cons ?_ hf⟩
    · simp [transform_address_list, transform_address, he, hds]
    · exact ⟨rfl, he⟩

/-- C4 amended: for a message whose headers all have supported variants and
whose address values all carry an address string, the copier succeeds and
emits, in source order and preserving duplicates, exactly one assignment
per non-ContentType header, each keeping the source name and semantically
matching the source value. -/
theorem C4_roundtrip_header_fidelity :
    ∀ (dest : MessageBuilder) (hs : List Header),
      (∀ h ∈ hs, supported_value h.value = true) →
      (∀ h ∈ hs, addrs_ok h.value = true) →
      ∃ out, copy_headers dest hs = some out
        ∧ ∃ emitted, out.headers = dest.headers ++ emitted
          ∧ List.Forall₂
              (fun (h : Header) (a : HeaderName × BHeaderType) =>
                a.1 = h.name ∧ value_matches h.value a.2)
              (hs.filter (fun h => !is_content_type_value h.value)) emitted
  | dest, [], _, _ => ⟨dest, rfl, [], by simp, by simp [List.Forall₂.nil]⟩
  | dest, h :: t, hsup, hok => by
    have hsup_t : ∀ x ∈ t, supported_value x.value = true :=
      fun x hx => hsup x (List.mem_cons_of_mem h hx)
    have hok_t : ∀ x ∈ t, addrs_ok x.value = true :=
      fun x hx => hok x (List.mem_cons_of_mem h hx)
    have hsup_h := hsup h (List.mem_cons_self h t)
    have hok_h := hok h (List.mem_cons_self h t)
    rcases h with ⟨hn, hv⟩
    cases hv with
    | address a =>
      obtain ⟨e, he⟩ :=
        Option.isSome_iff_exists.mp (by simpa [addrs_ok] using hok_h)
      obtain ⟨out, hout, em, hem, hf⟩ :=
        C4_roundtrip_header_fidelity
          (dest.header hn (BHeaderType.address (BAddress.single a.name e))) t hsup_t hok_t
      refine ⟨out, ?_,
        (hn, BHeaderType.address (BAddress.single a.name e)) :: em, ?_, ?_⟩
      · simp [copy_headers, transform_header_value, transform_address, he, hout]
      · rw [hem]; simp [MessageBuilder.header]
      · simp only [List.filter_cons, is_content_type_value, Bool.not_false, if_true]
        exact List.Forall₂.cons ⟨rfl, ⟨rfl, he⟩⟩ hf
    | addressList addrs =>
      obtain ⟨ds, hds, hfa⟩ :=
        transform_address_list_ok addrs
          (by intro x hx; have := hok_h; simp [addrs_ok, List.all_eq_true] at this; exact this x hx)
      obtain ⟨out, hout, em, hem, hf⟩ :=
        C4_roundtrip_header_fidelity
          (dest.header hn (BHeaderType.address (BAddress.list ds))) t hsup_t hok_t
      refine ⟨out, ?_, (hn, BHeaderType.address (BAddress.list ds)) :: em, ?_, ?_⟩
      · simp [copy_headers, transform_header_value, hds, hout]
      · rw [hem]; simp [MessageBuilder.header]
      · simp only [List.filter_cons, is_content_type_value, Bool.not_false, if_true]
        exact List.Forall₂.cons ⟨rfl, hfa⟩ hf
    | text s =>
      obtain ⟨out, hout, em, hem, hf⟩ :=
        C4_roundtrip_header_fidelity (dest.header hn (BHeaderType.text s)) t hsup_t hok_t
      refine ⟨out, ?_, (hn, BHeaderType.text s) :: em, ?_, ?_⟩
      · simp [copy_headers, transform_header_value, hout]
      · rw [hem]; simp [MessageBuilder.header]
      · simp only [List.filter_cons, is_content_type_value, Bool.not_false, if_true]
        exact List.Forall₂.cons ⟨rfl, rfl⟩ hf
    | textList ts =>
      obtain ⟨out, hout, em, hem, hf⟩ :=
        C4_roundtrip_header_fidelity
          (dest.header hn (BHeaderType.text (rust_join "\t\n" ts))) t hsup_t hok_t
      refine ⟨out, ?_, (hn, BHeaderType.text (rust_join "\t\n" ts)) :: em, ?_, ?_⟩
      · simp [copy_headers, transform_header_value, hout]
      · rw [hem]; simp [MessageBuilder.header]
      · simp only [List.filter_cons, is_content_type_value, Bool.not_false, if_true]
        exact List.Forall₂.cons ⟨rfl, rust_join_eq_intercalate "\t\n" ts⟩ hf
    | dateTime ts =>
      obtain ⟨out, hout, em, hem, hf⟩ :=
        C4_roundtrip_header_fidelity (dest.header hn (BHeaderType.date ts)) t hsup_t hok_t
      refine ⟨out, ?_, (hn, BHeaderType.date ts) :: em, ?_, ?_⟩
      · simp [copy_headers, transform_header_value, hout]
      · rw [hem]; simp [MessageBuilder.header]
      · simp only [List.filter_cons, is_content_type_value, Bool.not_false, if_true]
        exact List.Forall₂.cons ⟨rfl, rfl⟩ hf
    | contentType ct =>
      obtain ⟨out, hout, em, hem, hf⟩ :=
        C4_roundtrip_header_fidelity dest t hsup_t hok_t
      refine ⟨out, ?_, em, hem, ?_⟩
      · simp [copy_headers, transform_header_value, hout]
      · simpa [List.filter_cons, is_content_type_value] using hf
    | group gname addrs => exact absurd hsup_h (by simp [supported_value])
    | groupList gs => exact absurd hsup_h (by simp [supported_value])
    | empty => exact absurd hsup_h (by simp [supported_value])

/-- A header list exercising every supported variant, with a duplicate
Subject header. -/
def hsC4w : List Header :=
  [⟨HeaderName.other "From", HeaderValue.address ⟨some "Alice", some "alice@example.com"⟩⟩,
   ⟨HeaderName.other "To",
     HeaderValue.addressList [⟨none, some "bob@example.com"⟩, ⟨some "Carol", some "carol@example.com"⟩]⟩,
   ⟨HeaderName.other "Subject", HeaderValue.text "Hello"⟩,
   ⟨HeaderName.other "Subject", HeaderValue.text "Hello again"⟩,
   ⟨HeaderName.other "Keywords", HeaderValue.textList ["a", "b"]⟩,
   ⟨HeaderName.other "Date", HeaderValue.dateTime 1700000000⟩,
   ⟨HeaderName.rfc RfcHeader.contentType, HeaderValue.contentType ⟨"text", some "plain", []⟩⟩]

/-- C4 amended, witness: the copier succeeds on a list covering every
supported variant with a duplicate header name. -/
theorem C4_roundtrip_header_fidelity_witness :
    ∃ out, copy_headers MessageBuilder.new hsC4w = some out
      ∧ ∃ emitted, out.headers = MessageBuilder.new.headers ++ emitted
        ∧ List.Forall₂
            (fun (h : Header) (a : HeaderName × BHeaderType) =>
              a.1 = h.name ∧ value_matches h.value a.2)
            (hsC4w.filter (fun h => !is_content_type_value h.value)) emitted :=
  C4_roundtrip_header_fidelity MessageBuilder.new hsC4w (by decide) (by decide)

/-- A header list whose single header has a supported variant but no
address string. -/
def hsC4 : List Header := [⟨HeaderName.other "From", HeaderValue.address ⟨none, none⟩⟩]

/-- C4 counterexample: a message whose only header has the supported
Address variant, but with an absent address string, makes the copier abort
(none): it does not emit one matching assignment per non-ContentType
header. -/
theorem C4_counterexample :
    (∀ h ∈ hsC4, supported_value h.value = true)
    ∧ copy_headers MessageBuilder.new hsC4 = none := ⟨by decide, rfl⟩

/-! ## C8: attachment payload preservation -/

/-- The attachment assignment one part contributes to the output: its
derived content type and filename with the payload copied verbatim for
binary and text parts, nothing for every other payload shape. -/
def attachment_assignment (p : MessagePart) : Option Attachment :=
  match p.body with
  | PartType.binary bytes =>
    (get_file_name p).map (fun fn => ⟨get_content_type p, fn, AttachBody.binary bytes⟩)
  | PartType.text s =>
    (get_file_name p).map (fun fn => ⟨get_content_type p, fn, AttachBody.text s⟩)
  | _ => none

/-- C8 amended: when filename extraction succeeds on every attachment, the
attachment copier succeeds and appends, in source order, exactly one
assignment per binary or text attachment with the payload copied
byte-for-byte respectively character-for-character, silently skipping
every other payload shape; headers and bodies are untouched. -/
theorem C8_attachment_payload_preservation :
    ∀ (dest : MessageBuilder) (parts : List MessagePart),
      (∀ p ∈ parts, (get_file_name p).isSome = true) →
      ∃ out, copy_attachments dest parts = some out
        ∧ out.attachments = dest.attachments ++ parts.filterMap attachment_assignment
        ∧ out.headers = dest.headers ∧ out.textBody = dest.textBody
        ∧ out.htmlBody = dest.htmlBody
  | dest, [], _ => ⟨dest, rfl, by simp, rfl, rfl, rfl⟩
  | dest, p :: t, hall => by
    obtain ⟨fn, hfn⟩ := Option.isSome_iff_exists.mp (hall p (List.mem_cons_self p t))
    have htail : ∀ x ∈ t, (get_file_name x).isSome = true :=
      fun x hx => hall x (List.mem_cons_of_mem p hx)
    cases hb : p.body with
    | binary bytes =>
      obtain ⟨out, hout, hatt, hh, htb, hhb⟩ :=
        C8_attachment_payload_preservation
          (dest.binary_attachment (get_content_type p) fn bytes) t htail
      refine ⟨out, ?_, ?_, hh, htb, hhb⟩
      · simp [copy_attachments, hfn, hb, hout]
      · rw [hatt]
        simp [MessageBuilder.binary_attachment, List.filterMap_cons,
          attachment_assignment, hb, hfn]
    | text s =>
      obtain ⟨out, hout, hatt, hh, htb, hhb⟩ :=
        C8_attachment_payload_preservation
          (dest.text_attachment (get_content_type p) fn s) t htail
      refine ⟨out, ?_, ?_, hh, htb, hhb⟩
      · simp [copy_attachments, hfn, hb, hout]
      · rw [hatt]
        simp [MessageBuilder.text_attachment, List.filterMap_cons,
          attachment_assignment, hb, hfn]
    | html s =>
      obtain ⟨out, hout, hatt, hh, htb, hhb⟩ :=
        C8_attachment_payload_preservation dest t htail
      refine ⟨out, ?_, ?_, hh, htb, hhb⟩
      · simp [copy_attachments, hfn, hb, hout]
      · rw [hatt]; simp [List.filterMap_cons, attachment_assignment, hb]
    | inlineBinary bytes =>
      obtain ⟨out, hout, hatt, hh, htb, hhb⟩ :=
        C8_attachment_payload_preservation dest t htail
      refine ⟨out, ?_, ?_, hh, htb, hhb⟩
      · simp [copy_attachments, hfn, hb, hout]
      · rw [hatt]; simp [List.filterMap_cons, attachment_assignment, hb]
    | message =>
      obtain ⟨out, hout, hatt, hh, htb, hhb⟩ :=
        C8_attachment_payload_preservation dest t htail
      refine ⟨out, ?_, ?_, hh, htb, hhb⟩
      · simp [copy_attachments, hfn, hb, hout]
      · rw [hatt]; simp [List.filterMap_cons, attachment_assignment, hb]
    | multipart =>
      obtain ⟨out, hout, hatt, hh, htb, hhb⟩ :=
        C8_attachment_payload_preservation dest t htail
      refine ⟨out, ?_, ?_, hh, htb, hhb⟩
      · simp [copy_attachments, hfn, hb, hout]
      · rw [hatt]; simp [List.filterMap_cons, attachment_assignment, hb]

/-- Attachments with a named text part, a bare binary part and a nested
message part. -/
def partsC8w : List MessagePart :=
  [⟨[⟨HeaderName.rfc RfcHeader.contentDisposition,
      HeaderValue.contentType ⟨"attachment", none, [("filename", "note.txt")]⟩⟩,
     ⟨HeaderName.rfc RfcHeader.contentType, HeaderValue.contentType ⟨"text", some "plain", []⟩⟩],
    PartType.text "hi"⟩,
   ⟨[], PartType.binary [1, 2, 3]⟩,
   ⟨[], PartType.message⟩]

/-- C8 amended, witness: binary and text payloads are preserved verbatim
and the nested-message part is skipped without error. -/
theorem C8_attachment_payload_preservation_witness :
    ∃ out, copy_attachments MessageBuilder.new partsC8w = some out
      ∧ out.attachments = MessageBuilder.new.attachments
          ++ partsC8w.filterMap attachment_assignment
      ∧ out.headers = MessageBuilder.new.headers
      ∧ out.textBody = MessageBuilder.new.textBody
      ∧ out.htmlBody = MessageBuilder.new.htmlBody :=
  C8_attachment_payload_preservation MessageBuilder.new partsC8w (by decide)

/-- A single binary attachment whose Content-Disposition header carries no
filename attribute. -/
def partsC8 : List MessagePart :=
  [⟨[⟨HeaderName.rfc RfcHeader.contentDisposition, HeaderValue.contentType ⟨"attachment", none, []⟩⟩],
    PartType.binary [104, 105]⟩]

/-- C8 counterexample: an attachment with a binary payload but a
filename-less Content-Disposition header makes the attachment copier abort
(none) instead of emitting the payload-preserving assignment. -/
theorem C8_counterexample :
    partsC8.map MessagePart.body = [PartType.binary [104, 105]]
    ∧ copy_attachments MessageBuilder.new partsC8 = none := ⟨rfl, rfl⟩

/-! ## C9: substring machinery for the tracking-pixel containment facts -/

theorem prefix_append_split {α : Type} :
    ∀ {a : List α} {q b : List α}, q <+: a ++ b →
      q <+: a ∨ ∃ q2, q = a ++ q2 ∧ q2 <+: b
  | [], q, b, h => Or.inr ⟨q, by simp, h⟩
  | x :: a2, q, b, h => by
    rcases List.prefix_cons_iff.mp h with rfl | ⟨t, rfl, ht⟩
    · exact Or.inl List.nil_prefix
    · rcases prefix_append_split ht with h2 | ⟨q2, rfl, hq2⟩
      · exact Or.inl (List.cons_prefix_cons.mpr ⟨rfl, h2⟩)
      · exact Or.inr ⟨q2, by simp, hq2⟩

theorem suffix_append_split {α : Type} :
    ∀ {a : List α} {q c : List α}, q <:+ a ++ c →
      q <:+ c ∨ ∃ q1, q = q1 ++ c ∧ q1 <:+ a
  | [], q, c, h => Or.inl (by simpa using h)
  | x :: a2, q, c, h => by
    rcases List.suffix_cons_iff.mp h with rfl | ht
    · exact Or.inr ⟨x :: a2, by simp, List.suffix_refl _⟩
    · rcases suffix_append_split ht with h2 | ⟨q1, rfl, hq1⟩
      · exact Or.inl h2
      · exact Or.inr ⟨q1, rfl, hq1.trans (List.suffix_cons x a2)⟩

theorem infix_append_split {α : Type} {q a b : List α} (h : q <:+: a ++ b) :
    q <:+: a ∨ q <:+: b ∨
      ∃ q1 q2, q = q1 ++ q2 ∧ q1 ≠ [] ∧ q2 ≠ [] ∧ q1 <:+ a ∧ q2 <+: b := by
  obtain ⟨t, hqt, htp⟩ := List.infix_iff_suffix_prefix.mp h
  rcases prefix_append_split htp with hta | ⟨t2, rfl, ht2⟩
  · have ha : q <:+: a := List.infix_iff_suffix_prefix.mpr ⟨t, hqt, hta⟩
    exact Or.inl ha
  · rcases suffix_append_split hqt with hq2 | ⟨q1, rfl, hq1⟩
    · have hb : q <:+: b := List.infix_iff_suffix_prefix.mpr ⟨t2, hq2, ht2⟩
      exact Or.inr (Or.inl hb)
    · rcases eq_or_ne q1 [] with rfl | h1ne
      · have hp : t2 <+: b := ht2
        exact Or.inr (Or.inl (by simpa using hp.isInfix))
      · rcases eq_or_ne t2 [] with rfl | h2ne
        · have hs : q1 <:+ a := by simpa using hq1
          exact Or.inl (by simpa using hs.isInfix)
        · exact Or.inr (Or.inr ⟨q1, t2, rfl, h1ne, h2ne, hq1, ht2⟩)

theorem infix_of_append_left {α : Type} {q a : List α} (h : q <:+: a) (b : List α) :
    q <:+: a ++ b := by
  obtain ⟨s, t, rfl⟩ := h
  exact ⟨s, t ++ b, by simp⟩

theorem prefix_head?_eq {α : Type} {l w : List α} (h : l <+: w) (hne : l ≠ []) :
    w.head? = l.head? := by
  obtain ⟨u, rfl⟩ := h
  rw [List.head?_append_of_ne_nil l hne]

theorem getLast?_of_suffix {α : Type} {l w : List α} (h : l <:+ w) (hne : l ≠ []) :
    w.getLast? = l.getLast? := by
  obtain ⟨u, rfl⟩ := h
  rw [List.getLast?_append_of_ne_nil u hne]

/-- A pattern that occurs in no piece of A ++ (r ++ B) and cannot straddle
the two boundaries (the last element of A and the first element of B are
not elements of the pattern) occurs nowhere in the concatenation. -/
theorem not_infix_sandwich {q A r B : List Char}
    (hA : ¬ q <:+: A) (hr : ¬ q <:+: r) (hB : ¬ q <:+: B)
    (hlast : ∀ c ∈ q, A.getLast? ≠ some c)
    (hhead : ∀ c ∈ q, B.head? ≠ some c) :
    ¬ q <:+: A ++ (r ++ B) := by
  intro h
  rcases infix_append_split h with h1 | h2 | ⟨q1, q2, hq, h1ne, h2ne, hsuf, hpre⟩
  · exact hA h1
  · rcases infix_append_split h2 with h3 | h4 | ⟨q1, q2, hq, h1ne, h2ne, hsuf, hpre⟩
    · exact hr h3
    · exact hB h4
    · have hc : B.head? = some (q2.head h2ne) := by
        rw [prefix_head?_eq hpre h2ne, List.head?_eq_head h2ne]
      exact hhead (q2.head h2ne)
        (hq ▸ List.mem_append_right q1 (List.head_mem h2ne)) hc
  · have hc : A.getLast? = some (q1.getLast h1ne) := by
      rw [getLast?_of_suffix hsuf h1ne, List.getLast?_eq_getLast q1 h1ne]
    exact hlast (q1.getLast h1ne)
      (hq ▸ List.mem_append_left q2 (List.getLast_mem h1ne)) hc

/-- The fixed template text that precedes the rendered body. -/
def tmpl_head_str : String :=
  "\n        <html>\n            <head>\n            <meta http-equiv=\"Content-Type\" content=\"text/html charset=UTF-8\" />\n            <meta name=\"generator\" content=\"mutt-html-markdown/0.1\" />\n            <style>\n                code \x7b margin-left: 20px; background: #ddd; display: inline-block; padding: 10px 16px; font-family: monospace; \x7d\n                blockquote \x7b white-space: normal; border-left: 10px solid #ddd; margin-left: 0; padding-left: 10px \x7d\n            </style>\n            </head>\n            <body>\n                "

/-- The fixed template text that follows the rendered body when the append
fragment is empty. -/
def tmpl_tail_empty_str : String :=
  "\n                \n            </body>\n        </html>\n        "

set_option maxRecDepth 4096 in
theorem html_template_no_append_data (r : String) :
    (html_template r "").data = tmpl_head_str.data ++ (r.data ++ tmpl_tail_empty_str.data) := by
  show (tmpl_head_str ++ r ++ "\n                " ++ ""
      ++ "\n            </body>\n        </html>\n        ").data
    = tmpl_head_str.data ++ (r.data ++ tmpl_tail_empty_str.data)
  rw [String.data_append, String.data_append, String.data_append, String.data_append]
  rw [List.append_assoc, List.append_assoc, List.append_assoc]
  congr 2

theorem pixel_infix_template (body pix : String) :
    pix.data <:+: (html_template body pix).data := by
  show pix.data <:+: (tmpl_head_str ++ body ++ "\n                " ++ pix
      ++ "\n            </body>\n        </html>\n        ").data
  rw [String.data_append, String.data_append, String.data_append, String.data_append]
  exact ⟨tmpl_head_str.data ++ body.data ++ "\n                ".data,
    "\n            </body>\n        </html>\n        ".data, by simp⟩

theorem img_infix_pixel (u : String) : "<img".data <:+: (pixel_img_element u).data := by
  show "<img".data <:+: ("\n        <img src=\"" ++ u
      ++ "\" alt=\"Open pixel\" style=\"border: 0px; width: 0px; max-width: 1px;\" />\n        ").data
  rw [String.data_append, String.data_append]
  exact infix_of_append_left (infix_of_append_left (by decide) u.data) _

set_option maxRecDepth 100000 in
/-- C9: in a run where delivery, HTML generation and the tracking pixel are
all configured together, the builder handed to the delivery collaborator
has its HTML body rendered with no append fragment -- and, as long as the
rendered markdown body itself does not contain "<img", the pixel fragment
occurs nowhere in it -- while the builder emitted to standard output has
its HTML body rendered with the pixel fragment appended and contains it. -/
theorem C9_delivered_without_pixel :
    ∀ (md : String → String) (m : Message) (mbx srv prt usr pwd url : String)
      (out : MainOutcome),
      main_reconstruct md m ⟨some mbx, some srv, some prt, some usr, some pwd, true, some url⟩
        = some out →
      ∃ tb pix del,
        text_body m = some tb
        ∧ get_pixel_element url m = some pix
        ∧ out.delivered = some del
        ∧ del.htmlBody = some (html_template (md (pre_markdown tb)) "")
        ∧ out.output.htmlBody = some (html_template (md (pre_markdown tb)) pix)
        ∧ pix.data <:+: (html_template (md (pre_markdown tb)) pix).data
        ∧ (¬ ("<img".data <:+: (md (pre_markdown tb)).data) →
            ¬ pix.data <:+: (html_template (md (pre_markdown tb)) "").data) := by
  intro md m mbx srv prt usr pwd url out hmain
  simp only [main_reconstruct] at hmain
  cases hget : get_builder_from_parsed m with
  | none => simp only [hget] at hmain; exact Option.noConfusion hmain
  | some eml =>
    simp only [hget, handle_put_email_on_imap_server, Option.getD_some] at hmain
    cases hprt : parse_u16 prt with
    | none => simp only [hprt] at hmain; exact Option.noConfusion hmain
    | some port =>
      simp only [hprt, if_true] at hmain
      cases hh1 : text_body_as_html md m none with
      | none => simp only [hh1] at hmain; exact Option.noConfusion hmain
      | some doc1 =>
        simp only [hh1] at hmain
        cases hpx : get_pixel_element url m with
        | none =>
          simp only [hpx, Option.map_none'] at hmain
          exact Option.noConfusion hmain
        | some pix =>
          simp only [hpx, Option.map_some'] at hmain
          cases hh2 : text_body_as_html md m (some pix) with
          | none => simp only [hh2] at hmain; exact Option.noConfusion hmain
          | some doc2 =>
            simp only [hh2, Option.some.injEq] at hmain
            subst hmain
            simp only [text_body_as_html] at hh1 hh2
            cases htb : text_body m with
            | none => rw [htb] at hh1; exact absurd hh1 (by simp)
            | some tb =>
              rw [htb] at hh1 hh2
              simp only [Option.map_some', Option.getD_some, Option.getD_none,
                Option.some.injEq] at hh1 hh2
              subst hh1
              subst hh2
              cases hid : m.messageId with
              | none => rw [get_pixel_element, hid] at hpx; exact absurd hpx (by simp)
              | some id =>
                rw [get_pixel_element, hid] at hpx
                simp only [Option.map_some', Option.some.injEq] at hpx
                refine ⟨tb, pix, _, rfl, hpx ▸ rfl, rfl, rfl, rfl,
                  pixel_infix_template _ pix, ?_⟩
                intro hno hcont
                have himg_pix : "<img".data <:+: pix.data := by
                  rw [← hpx]; exact img_infix_pixel _
                have hfull : "<img".data
                    <:+: (html_template (md (pre_markdown tb)) "").data :=
                  List.IsInfix.trans himg_pix hcont
                rw [html_template_no_append_data] at hfull
                exact not_infix_sandwich (by decide) hno (by decide)
                  (by decide) (by decide) hfull

/-- A message for exercising the combined delivery, HTML and pixel run. -/
def mC9 : Message := ⟨[], some "hi", [], some "id1"⟩

/-- The outcome of that run with the identity function standing in for the
markdown renderer. -/
def outC9 : MainOutcome :=
  (main_reconstruct (fun s => s) mC9
    ⟨some "inbox", some "imap.example", some "993", some "user", some "pass",
     true, some "https://t.example"⟩).getD ⟨none, MessageBuilder.new⟩

/-- C9 witness: the concrete run delivers a builder whose HTML body has no
pixel fragment while the standard-output builder contains it. -/
theorem C9_delivered_without_pixel_witness :
    ∃ tb pix del,
      text_body mC9 = some tb
      ∧ get_pixel_element "https://t.example" mC9 = some pix
      ∧ outC9.delivered = some del
      ∧ del.htmlBody = some (html_template ((fun s => s) (pre_markdown tb)) "")
      ∧ outC9.output.htmlBody = some (html_template ((fun s => s) (pre_markdown tb)) pix)
      ∧ pix.data <:+: (html_template ((fun s => s) (pre_markdown tb)) pix).data
      ∧ (¬ ("<img".data <:+: ((fun s => s) (pre_markdown tb)).data) →
          ¬ pix.data <:+: (html_template ((fun s => s) (pre_markdown tb)) "").data) :=
  C9_delivered_without_pixel (fun s => s) mC9 "inbox" "imap.example" "993"
    "user" "pass" "https://t.example" outC9 rfl

end Enrichmail
